import Mathlib

/-!
Verification development for the SSE notification layer of the stock-scanner
server.  The embedded code is the `SSEManager` class (the version with a
short-polling message-queue store) together with the short-polling branch of
`handleSSEConnection`.

Modelling conventions:
* JavaScript `Map` objects are embedded as association lists (`List (String × α)`)
  so that insertion order (which drives `Map` iteration order) is preserved.
  `Map.get`, `Map.set`, `Map.delete` become `lookupA`, `setA`, `delA`;
  `Map.set` keeps the position of an existing key, as in JS.
* An Express `Response` push handle is embedded as `Conn`: a `failing` flag
  (a write attempt on a failing handle throws, which the source catches) and
  the list of frames successfully written to it.  The two `response.write`
  calls that emit one SSE frame (`event:` line plus `data:` line ending in a
  blank line) are modelled as appending one `Frame` record; the frame's
  `timestamp` field is the `timestamp` inside the JSON `data` payload
  (`new Date().toISOString()`), with time modelled as a natural number.
* Queue entries are exactly what the source pushes: `{ eventType, data }`
  records with no timestamp (`QMsg`).  Payloads are modelled opaquely as
  strings.
* The 60-second delayed queue deletion (`setTimeout(..., 60000)` inside
  `removeClient`) is modelled by recording the scheduled deletion in
  `pendingDeletions`; a separate transition `fireQueueDeletion` executes the
  timer callback (`this.messageQueues.delete(clientId)`) when it comes due.
-/

/-- Association-list lookup, embedding JS `Map.get` (first match wins). -/
def lookupA {α : Type} : List (String × α) → String → Option α
  | [], _ => none
  | (k, v) :: rest, k' => if k = k' then some v else lookupA rest k'

/-- Association-list insert/replace, embedding JS `Map.set`: an existing key
keeps its position, a new key is appended at the end. -/
def setA {α : Type} : List (String × α) → String → α → List (String × α)
  | [], k, v => [(k, v)]
  | (k', v') :: rest, k, v =>
      if k' = k then (k, v) :: rest else (k', v') :: setA rest k v

/-- Association-list delete, embedding JS `Map.delete`. -/
def delA {α : Type} : List (String × α) → String → List (String × α)
  | [], _ => []
  | (k', v') :: rest, k =>
      if k' = k then delA rest k else (k', v') :: delA rest k

/-- The keys of an association list are pairwise distinct (always true of a
JS `Map`, and preserved by `setA`/`delA`). -/
def nodupKeys {α : Type} (l : List (String × α)) : Prop :=
  (l.map Prod.fst).Nodup

instance {α : Type} (l : List (String × α)) : Decidable (nodupKeys l) := by
  unfold nodupKeys; infer_instance

/-- One SSE wire frame: the `event:` line's event type, the payload, and the
`timestamp` stamped into the JSON body at emission time. -/
structure Frame where
  event : String
  data : String
  timestamp : Nat
deriving DecidableEq, Repr

/-- A queued message, exactly as pushed by the source:
`queue.push({ eventType, data })` — note there is no timestamp field. -/
structure QMsg where
  eventType : String
  data : String
deriving DecidableEq, Repr

/-- A push-connection handle (Express `Response`): whether a write attempt
throws, and the log of frames written so far. -/
structure Conn where
  failing : Bool
  written : List Frame
deriving DecidableEq, Repr

/-- The state of the `SSEManager` singleton: `clients` (push registry),
`messageQueues` (short-polling queue store), and the pending delayed queue
deletions scheduled by `removeClient` (client id, absolute fire time). -/
structure SSEManagerState where
  clients : List (String × Conn)
  messageQueues : List (String × List QMsg)
  pendingDeletions : List (String × Nat)
deriving DecidableEq, Repr

namespace SSEManager

/-- Embeds `SSEManager.addClient(clientId, response?)`: if a push handle is
given it is installed (replacing any previous one); a message queue is
created only if none exists for the id. -/
def addClient (s : SSEManagerState) (id : String) (conn : Option Conn) :
    SSEManagerState :=
  let s1 := match conn with
    | some c => { s with clients := setA s.clients id c }
    | none => s
  if (lookupA s1.messageQueues id).isSome then s1
  else { s1 with messageQueues := setA s1.messageQueues id [] }

/-- Embeds `SSEManager.removeClient(clientId)`: guarded by
`clients.has(clientId)`; closes and deletes the registry entry and schedules
the queue deletion 60000 ms after `now` (the `setTimeout` at the source's
lines 333–335).  The `response.end()` attempt has no effect on manager
state. -/
def removeClient (s : SSEManagerState) (id : String) (now : Nat) :
    SSEManagerState :=
  match lookupA s.clients id with
  | none => s
  | some _ =>
      { s with
        clients := delA s.clients id,
        pendingDeletions := s.pendingDeletions ++ [(id, now + 60000)] }

/-- Embeds the expiry of one timer scheduled by `removeClient`: when the
scheduled (id, time) pair is due, the callback runs
`this.messageQueues.delete(clientId)` unconditionally. -/
def fireQueueDeletion (s : SSEManagerState) (id : String) (t : Nat) :
    SSEManagerState :=
  if (id, t) ∈ s.pendingDeletions then
    { s with
      messageQueues := delA s.messageQueues id,
      pendingDeletions := s.pendingDeletions.erase (id, t) }
  else s

/-- Embeds `SSEManager.sendToClient(clientId, eventType, data)`.
With no registry entry: append `{eventType, data}` to the queue if one
exists (no size cap on this path) and return true, else return false.
With a registry entry: write the frame (timestamped `now`); on success also
append to the queue, evicting one oldest entry when the length exceeds 1000,
and return true; on a write failure run `removeClient` and return false. -/
def sendToClient (s : SSEManagerState) (id eventType data : String)
    (now : Nat) : Bool × SSEManagerState :=
  match lookupA s.clients id with
  | none =>
      match lookupA s.messageQueues id with
      | some q =>
          (true, { s with
            messageQueues := setA s.messageQueues id (q ++ [⟨eventType, data⟩]) })
      | none => (false, s)
  | some conn =>
      if conn.failing then
        (false, removeClient s id now)
      else
        let conn' := { conn with
          written := conn.written ++ [⟨eventType, data, now⟩] }
        let s1 := { s with clients := setA s.clients id conn' }
        match lookupA s1.messageQueues id with
        | some q =>
            let q1 := q ++ [⟨eventType, data⟩]
            let q2 := if q1.length > 1000 then q1.tail else q1
            (true, { s1 with messageQueues := setA s1.messageQueues id q2 })
        | none => (true, s1)

/-- Embeds `SSEManager.getPendingMessages(clientId)`: return the queued
messages and clear the queue; an absent or empty queue yields `[]`. -/
def getPendingMessages (s : SSEManagerState) (id : String) :
    List QMsg × SSEManagerState :=
  match lookupA s.messageQueues id with
  | none => ([], s)
  | some q =>
      if q.isEmpty then ([], s)
      else (q, { s with messageQueues := setA s.messageQueues id [] })

/-- Embeds the write loop of `SSEManager.broadcast`: walk the registry in
iteration order, write the frame to each handle, and collect the ids whose
write threw (`deadClients`), without mutating the registry mid-iteration. -/
def broadcastWrite (eventType data : String) (now : Nat) :
    List (String × Conn) → List (String × Conn) × List String
  | [] => ([], [])
  | (id, c) :: rest =>
      let r := broadcastWrite eventType data now rest
      if c.failing then ((id, c) :: r.1, id :: r.2)
      else ((id, { c with written := c.written ++ [⟨eventType, data, now⟩] }) :: r.1,
            r.2)

/-- Embeds `SSEManager.broadcast(eventType, data)`: one message (one
timestamp) written to every registered handle, then
`deadClients.forEach(removeClient)` after the iteration completes. -/
def broadcast (s : SSEManagerState) (eventType data : String) (now : Nat) :
    SSEManagerState :=
  let r := broadcastWrite eventType data now s.clients
  r.2.foldl (fun s2 id => removeClient s2 id now) { s with clients := r.1 }

/-- Embeds `SSEManager.getClientCount()`: the size of the push registry. -/
def getClientCount (s : SSEManagerState) : Nat :=
  s.clients.length

end SSEManager

/-- One record of a short-polling response body: either the synthetic
`connected` event (`event: connected` with `{client_id, message}` data) or
one message frame. -/
inductive SSERecord where
  | connected (clientId : String)
  | frame (f : Frame)
deriving DecidableEq, Repr

/-- Projects the frame out of a body record, if it is one. -/
def SSERecord.getFrame : SSERecord → Option Frame
  | SSERecord.frame f => some f
  | SSERecord.connected _ => none

open SSEManager in
/-- Embeds the short-polling branch of `handleSSEConnection` (selected when
the poll query flag or a restricted user agent is present): reject an absent
client id (the 400 path, modelled as `none`); otherwise initialise the queue
via `addClient` with no push handle, drain via `getPendingMessages`, and
compose the body: a `connected` record unless a `last_event_id` replay
cursor was supplied, then one frame per drained message stamped with the
current time `now`, then a second `connected` record when the queue was
empty and no cursor was supplied. -/
def handleSSEConnectionPoll (s : SSEManagerState) (clientId : String)
    (hasLastEventId : Bool) (now : Nat) :
    Option (List SSERecord) × SSEManagerState :=
  if clientId = "" then (none, s)
  else
    let s1 := addClient s clientId none
    let pr := getPendingMessages s1 clientId
    let body0 : List SSERecord :=
      if hasLastEventId then [] else [SSERecord.connected clientId]
    let body1 := body0 ++
      pr.1.map (fun m => SSERecord.frame ⟨m.eventType, m.data, now⟩)
    let body2 :=
      if pr.1.isEmpty && !hasLastEventId then
        body1 ++ [SSERecord.connected clientId]
      else body1
    (some body2, pr.2)


open SSEManager in
/-- Iterates `sendToClient` n times with a fixed message, modelling a
producer that keeps sending to the same client. -/
def sendRepeatedly (id eventType data : String) :
    Nat → SSEManagerState → SSEManagerState
  | 0, s => s
  | Nat.succ m, s =>
      (sendToClient (sendRepeatedly id eventType data m s) id eventType data 0).2

open SSEManager in
/-- Trace of the delayed-deletion race: register "c" with a push handle,
remove it at time 0 (which schedules the queue deletion for time 60000),
re-register it before expiry, and send one message at time 10 (which is
queued as the dual-write backup). -/
def graceRaceBeforeFire : SSEManagerState :=
  (sendToClient
    (addClient
      (removeClient
        (addClient (SSEManagerState.mk [] [] []) "c"
          (some (Conn.mk false [])))
        "c" 0)
      "c" (some (Conn.mk false [])))
    "c" "e" "d" 10).2

open SSEManager in
/-- The race trace after the timer scheduled at removal fires at 60000. -/
def graceRaceAfterFire : SSEManagerState :=
  fireQueueDeletion graceRaceBeforeFire "c" 60000

/-! ### Association-list lemmas -/

theorem lookupA_setA_self {α : Type} (l : List (String × α)) (k : String)
    (v : α) : lookupA (setA l k v) k = some v := by
  induction l with
  | nil => simp [setA, lookupA]
  | cons hd tl ih =>
      obtain ⟨a, b⟩ := hd
      by_cases h : a = k <;> simp [setA, h, lookupA, ih]

theorem lookupA_setA_ne {α : Type} (l : List (String × α)) (k k' : String)
    (v : α) (h : k ≠ k') : lookupA (setA l k v) k' = lookupA l k' := by
  induction l with
  | nil => simp [setA, lookupA, h]
  | cons hd tl ih =>
      obtain ⟨a, b⟩ := hd
      by_cases ha : a = k
      · subst ha; simp [setA, lookupA, h]
      · simp [setA, ha, lookupA, ih]

theorem lookupA_delA {α : Type} (l : List (String × α)) (k k' : String) :
    lookupA (delA l k) k' = if k = k' then none else lookupA l k' := by
  induction l with
  | nil => simp [delA, lookupA]
  | cons hd tl ih =>
      obtain ⟨a, b⟩ := hd
      by_cases ha : a = k
      · subst ha
        simp only [delA, if_pos rfl, ih]
        by_cases hk : a = k'
        · subst hk; simp [ih]
        · simp [ih, hk, lookupA]
      · by_cases hk : k = k'
        · subst hk
          simp [delA, ha, lookupA, ih]
        · by_cases ha' : a = k'
          · subst ha'; simp [delA, ha, lookupA, hk]
          · simp [delA, ha, lookupA, ha', ih, hk]

theorem delA_of_not_mem_keys {α : Type} (l : List (String × α)) (k : String)
    (h : k ∉ l.map Prod.fst) : delA l k = l := by
  induction l with
  | nil => rfl
  | cons hd tl ih =>
      obtain ⟨a, b⟩ := hd
      simp only [List.map_cons, List.mem_cons] at h
      push_neg at h
      have hak : a ≠ k := fun hc => h.1 hc.symm
      simp [delA, hak, ih h.2]

theorem length_delA {α : Type} (l : List (String × α)) (k : String) (v : α)
    (hnd : nodupKeys l) (hm : lookupA l k = some v) :
    (delA l k).length + 1 = l.length := by
  induction l with
  | nil => simp [lookupA] at hm
  | cons hd tl ih =>
      obtain ⟨a, b⟩ := hd
      simp only [nodupKeys, List.map_cons, List.nodup_cons] at hnd
      by_cases ha : a = k
      · subst ha
        have hd1 : delA tl a = tl := delA_of_not_mem_keys tl a hnd.1
        simp [delA, hd1]
      · simp only [lookupA, if_neg ha] at hm
        have := ih hnd.2 hm
        simp only [delA, if_neg ha, List.length_cons]
        omega

theorem lookupA_of_mem_nodup {α : Type} (l : List (String × α)) (k : String)
    (v : α) (hnd : nodupKeys l) (hm : (k, v) ∈ l) : lookupA l k = some v := by
  induction l with
  | nil => simp at hm
  | cons hd tl ih =>
      obtain ⟨a, b⟩ := hd
      simp only [nodupKeys, List.map_cons, List.nodup_cons] at hnd
      rcases List.mem_cons.mp hm with h | h
      · injection h with h1 h2
        subst h1; subst h2
        simp [lookupA]
      · have hak : a ≠ k := by
          intro hak
          subst hak
          exact hnd.1 (List.mem_map.mpr ⟨(a, v), h, rfl⟩)
        simp [lookupA, hak, ih hnd.2 h]

/-! ### Manager-level helper lemmas -/

namespace SSEManager

theorem getPendingMessages_fst (s : SSEManagerState) (id : String) :
    (getPendingMessages s id).1 = (lookupA s.messageQueues id).getD [] := by
  cases h : lookupA s.messageQueues id with
  | none => simp [getPendingMessages, h]
  | some q =>
      by_cases hq : q.isEmpty
      · have hnil : q = [] := by simpa using hq
        subst hnil
        simp [getPendingMessages, h]
      · simp [getPendingMessages, h, hq]

theorem getPendingMessages_snd_lookup (s : SSEManagerState) (id : String) :
    lookupA (getPendingMessages s id).2.messageQueues id =
      (lookupA s.messageQueues id).map (fun _ => []) := by
  cases h : lookupA s.messageQueues id with
  | none => simp [getPendingMessages, h]
  | some q =>
      by_cases hq : q.isEmpty
      · have hnil : q = [] := by simpa using hq
        subst hnil
        simp [getPendingMessages, h]
      · simp [getPendingMessages, h, hq, lookupA_setA_self]

theorem getPendingMessages_drain_twice (s : SSEManagerState) (id : String) :
    (getPendingMessages (getPendingMessages s id).2 id).1 = [] := by
  rw [getPendingMessages_fst, getPendingMessages_snd_lookup]
  cases lookupA s.messageQueues id <;> simp

theorem removeClient_messageQueues (s : SSEManagerState) (id : String)
    (now : Nat) : (removeClient s id now).messageQueues = s.messageQueues := by
  cases h : lookupA s.clients id <;> simp [removeClient, h]

theorem removeClient_lookup_self (s : SSEManagerState) (id : String)
    (now : Nat) : lookupA (removeClient s id now).clients id = none := by
  cases h : lookupA s.clients id <;>
    simp [removeClient, h, lookupA_delA]

theorem removeClient_lookup_of_none (s : SSEManagerState) (id id' : String)
    (now : Nat) (h : lookupA s.clients id = none) :
    lookupA (removeClient s id' now).clients id = none := by
  cases hc : lookupA s.clients id' with
  | none => simp [removeClient, hc, h]
  | some c =>
      by_cases hii : id' = id
      · subst hii
        simp [removeClient, hc, lookupA_delA]
      · simp [removeClient, hc, lookupA_delA, hii, h]

theorem removeClient_lookup_ne (s : SSEManagerState) (id id' : String)
    (now : Nat) (h : id' ≠ id) :
    lookupA (removeClient s id' now).clients id = lookupA s.clients id := by
  cases hc : lookupA s.clients id' with
  | none => simp [removeClient, hc]
  | some c => simp [removeClient, hc, lookupA_delA, h]

end SSEManager

open SSEManager

/-! ### Claim theorems -/

/-- C3: for any ClientId for which neither a registry entry nor a poll queue
exists, `sendToClient` returns false and leaves the whole manager state
unchanged — no state is created for that id. -/
theorem sendToClient_unknownClient (s : SSEManagerState)
    (id eventType data : String) (now : Nat)
    (hc : lookupA s.clients id = none)
    (hq : lookupA s.messageQueues id = none) :
    sendToClient s id eventType data now = (false, s) := by
  simp [sendToClient, hc, hq]

/-- Witness for C3 at the empty manager state and an unregistered id. -/
theorem sendToClient_unknownClient_witness :
    lookupA (SSEManagerState.mk [] [] []).clients "ghost" = none ∧
    sendToClient (SSEManagerState.mk [] [] []) "ghost" "analysis_progress" "p" 0 =
      (false, SSEManagerState.mk [] [] []) :=
  ⟨rfl, sendToClient_unknownClient _ "ghost" _ _ 0 rfl rfl⟩

/-- C4: `getPendingMessages` (drain) returns every currently queued message
for the id in order and clears the queue, so an immediately repeated drain
returns the empty list; an unknown id yields the empty list and an unchanged
state. -/
theorem getPendingMessages_spec (s : SSEManagerState) (id : String) :
    (getPendingMessages s id).1 = (lookupA s.messageQueues id).getD [] ∧
    (getPendingMessages (getPendingMessages s id).2 id).1 = [] ∧
    (lookupA s.messageQueues id = none → getPendingMessages s id = ([], s)) := by
  refine ⟨getPendingMessages_fst s id, getPendingMessages_drain_twice s id, ?_⟩
  intro h
  simp [getPendingMessages, h]

/-- Witness for C4 at the empty manager state and an unknown id. -/
theorem getPendingMessages_spec_witness :
    lookupA (SSEManagerState.mk [] [] []).messageQueues "u" = none ∧
    getPendingMessages (SSEManagerState.mk [] [] []) "u" =
      ([], SSEManagerState.mk [] [] []) :=
  ⟨rfl, (getPendingMessages_spec (SSEManagerState.mk [] [] []) "u").2.2 rfl⟩

/-- C5: `removeClient` on a push-registered id deletes the registry entry
(the client count drops by one) while leaving the queue store — and hence
what a drain returns — untouched, scheduling the queue deletion only for 60
seconds later; on an id with no registry entry it is a no-op. -/
theorem removeClient_spec (s : SSEManagerState) (id : String) (now : Nat) :
    (∀ c, nodupKeys s.clients → lookupA s.clients id = some c →
      lookupA (removeClient s id now).clients id = none ∧
      getClientCount (removeClient s id now) + 1 = getClientCount s ∧
      (removeClient s id now).messageQueues = s.messageQueues ∧
      (getPendingMessages (removeClient s id now) id).1 =
        (getPendingMessages s id).1 ∧
      (removeClient s id now).pendingDeletions =
        s.pendingDeletions ++ [(id, now + 60000)]) ∧
    (lookupA s.clients id = none → removeClient s id now = s) := by
  constructor
  · intro c hnd h
    refine ⟨removeClient_lookup_self s id now, ?_,
      removeClient_messageQueues s id now, ?_, ?_⟩
    · have hcl : (removeClient s id now).clients = delA s.clients id := by
        simp [removeClient, h]
      rw [getClientCount, getClientCount, hcl]
      exact length_delA s.clients id c hnd h
    · rw [getPendingMessages_fst, getPendingMessages_fst,
        removeClient_messageQueues]
    · simp [removeClient, h]
  · intro h
    simp [removeClient, h]

/-- Witness for C5: a single registered push client with one queued message,
removed at time 5. -/
theorem removeClient_spec_witness :
    getClientCount
        (removeClient
          (SSEManagerState.mk [("c", Conn.mk false [])]
            [("c", [QMsg.mk "e" "d"])] []) "c" 5) + 1 =
      getClientCount
        (SSEManagerState.mk [("c", Conn.mk false [])]
          [("c", [QMsg.mk "e" "d"])] []) :=
  ((removeClient_spec _ "c" 5).1 (Conn.mk false []) (by decide) (by decide)).2.1

/-- Queue-only branch of `sendToClient`: with no registry entry but an
existing queue, the message is appended (with no size cap on this path) and
the call reports success. -/
theorem sendToClient_queueOnly (s : SSEManagerState) (id e d : String)
    (now : Nat) (q : List QMsg)
    (hc : lookupA s.clients id = none)
    (hq : lookupA s.messageQueues id = some q) :
    sendToClient s id e d now =
      (true, { s with
        messageQueues := setA s.messageQueues id (q ++ [QMsg.mk e d]) }) := by
  simp [sendToClient, hc, hq]

theorem lookupA_singleton {α : Type} (k : String) (v : α) :
    lookupA [(k, v)] k = some v := by
  simp [lookupA]

theorem sendRepeatedly_queueOnly_state (n : Nat) :
    sendRepeatedly "c" "e" "d" n (SSEManagerState.mk [] [("c", [])] []) =
      SSEManagerState.mk [] [("c", List.replicate n (QMsg.mk "e" "d"))] [] := by
  induction n with
  | zero => rfl
  | succ m ih =>
      rw [sendRepeatedly, ih,
        sendToClient_queueOnly
          (SSEManagerState.mk []
            [("c", List.replicate m (QMsg.mk "e" "d"))] [])
          "c" "e" "d" 0 (List.replicate m (QMsg.mk "e" "d")) rfl
          (lookupA_singleton "c" _)]
      simp [setA, List.replicate_succ']

/-- C1 (refuted; code bug): the queue-only branch of `sendToClient` has no
1000-entry cap — the trim runs only on the push dual-write path — so after
1001 sends to a queue-only client the queue holds all 1001 messages, not the
most recent 1000. -/
theorem queueOnly_send_1001_keeps_all :
    lookupA
        (sendRepeatedly "c" "e" "d" 1001
          (addClient (SSEManagerState.mk [] [] []) "c" none)).messageQueues
        "c" =
      some (List.replicate 1001 (QMsg.mk "e" "d")) ∧
    (List.replicate 1001 (QMsg.mk "e" "d")).length = 1001 := by
  have h0 : addClient (SSEManagerState.mk [] [] []) "c" none =
      SSEManagerState.mk [] [("c", [])] [] := rfl
  rw [h0, sendRepeatedly_queueOnly_state]
  exact ⟨lookupA_singleton "c" _, List.length_replicate 1001 _⟩

/-- C2: for a client registered with a working push handle and possessing a
poll queue, a successful `sendToClient` writes the frame to the push handle
and also appends the same message to the queue, so a subsequent drain ends
with that message (dual-write). -/
theorem sendToClient_push_dualWrite (s : SSEManagerState) (id e d : String)
    (now : Nat) (c : Conn) (q : List QMsg)
    (hc : lookupA s.clients id = some c) (hfail : c.failing = false)
    (hq : lookupA s.messageQueues id = some q) :
    (sendToClient s id e d now).1 = true ∧
    lookupA (sendToClient s id e d now).2.clients id =
      some { c with written := c.written ++ [Frame.mk e d now] } ∧
    (getPendingMessages (sendToClient s id e d now).2 id).1.getLast? =
      some (QMsg.mk e d) := by
  have hstate : sendToClient s id e d now =
      (true, { s with
        clients := setA s.clients id
          { c with written := c.written ++ [Frame.mk e d now] },
        messageQueues := setA s.messageQueues id
          (if (q ++ [QMsg.mk e d]).length > 1000 then (q ++ [QMsg.mk e d]).tail
           else q ++ [QMsg.mk e d]) }) := by
    simp [sendToClient, hc, hfail, hq]
  refine ⟨by rw [hstate], ?_, ?_⟩
  · rw [hstate]
    exact lookupA_setA_self s.clients id _
  · have hmq : (sendToClient s id e d now).2.messageQueues =
        setA s.messageQueues id
          (if (q ++ [QMsg.mk e d]).length > 1000 then (q ++ [QMsg.mk e d]).tail
           else q ++ [QMsg.mk e d]) := by
      rw [hstate]
    rw [getPendingMessages_fst, hmq, lookupA_setA_self, Option.getD_some]
    split
    · next hlen =>
        cases q with
        | nil => simp at hlen
        | cons a q' =>
            rw [List.cons_append, List.tail_cons, List.getLast?_concat]
    · rw [List.getLast?_concat]

/-- Witness for C2: one registered client with a fresh handle and an empty
queue, sent one message at time 7. -/
theorem sendToClient_push_dualWrite_witness :
    (sendToClient
        (SSEManagerState.mk [("c", Conn.mk false [])] [("c", [])] [])
        "c" "e" "d" 7).1 = true ∧
    lookupA
        (sendToClient
          (SSEManagerState.mk [("c", Conn.mk false [])] [("c", [])] [])
          "c" "e" "d" 7).2.clients "c" =
      some (Conn.mk false [Frame.mk "e" "d" 7]) ∧
    (getPendingMessages
        (sendToClient
          (SSEManagerState.mk [("c", Conn.mk false [])] [("c", [])] [])
          "c" "e" "d" 7).2 "c").1.getLast? =
      some (QMsg.mk "e" "d") :=
  sendToClient_push_dualWrite _ "c" "e" "d" 7 (Conn.mk false []) []
    (by decide) rfl (by decide)

/-! ### Broadcast lemmas -/

theorem mem_of_lookupA {α : Type} (l : List (String × α)) (k : String)
    (v : α) (h : lookupA l k = some v) : (k, v) ∈ l := by
  induction l with
  | nil => simp [lookupA] at h
  | cons hd tl ih =>
      obtain ⟨a, b⟩ := hd
      by_cases ha : a = k
      · subst ha
        simp [lookupA] at h
        subst h
        exact List.mem_cons_self _ _
      · simp only [lookupA, if_neg ha] at h
        exact List.mem_cons_of_mem _ (ih h)

theorem broadcastWrite_lookup (e d : String) (now : Nat)
    (l : List (String × Conn)) (id : String) :
    lookupA (broadcastWrite e d now l).1 id =
      (lookupA l id).map
        (fun c => if c.failing then c
          else { c with written := c.written ++ [Frame.mk e d now] }) := by
  induction l with
  | nil => simp [broadcastWrite, lookupA]
  | cons hd tl ih =>
      obtain ⟨a, c⟩ := hd
      by_cases hf : c.failing <;> by_cases ha : a = id <;>
        simp [broadcastWrite, lookupA, hf, ha, ih]

theorem broadcastWrite_dead (e d : String) (now : Nat)
    (l : List (String × Conn)) :
    (broadcastWrite e d now l).2 =
      (l.filter (fun p => p.2.failing)).map Prod.fst := by
  induction l with
  | nil => rfl
  | cons hd tl ih =>
      obtain ⟨a, c⟩ := hd
      by_cases hf : c.failing <;> simp [broadcastWrite, hf, ih]

theorem foldl_removeClient_messageQueues (ids : List String)
    (s : SSEManagerState) (now : Nat) :
    (ids.foldl (fun s2 i => removeClient s2 i now) s).messageQueues =
      s.messageQueues := by
  induction ids generalizing s with
  | nil => rfl
  | cons a tl ih => rw [List.foldl_cons, ih, removeClient_messageQueues]

theorem foldl_removeClient_lookup_not_mem (ids : List String)
    (s : SSEManagerState) (now : Nat) (id : String) (h : id ∉ ids) :
    lookupA (ids.foldl (fun s2 i => removeClient s2 i now) s).clients id =
      lookupA s.clients id := by
  induction ids generalizing s with
  | nil => rfl
  | cons a tl ih =>
      simp only [List.mem_cons] at h
      push_neg at h
      rw [List.foldl_cons, ih _ h.2,
        removeClient_lookup_ne _ _ _ _ (fun hc => h.1 hc.symm)]

theorem foldl_removeClient_lookup_none (ids : List String)
    (s : SSEManagerState) (now : Nat) (id : String)
    (h : lookupA s.clients id = none) :
    lookupA (ids.foldl (fun s2 i => removeClient s2 i now) s).clients id =
      none := by
  induction ids generalizing s with
  | nil => exact h
  | cons a tl ih =>
      rw [List.foldl_cons]
      exact ih _ (removeClient_lookup_of_none _ _ _ _ h)

theorem foldl_removeClient_lookup_mem (ids : List String)
    (s : SSEManagerState) (now : Nat) (id : String) (h : id ∈ ids) :
    lookupA (ids.foldl (fun s2 i => removeClient s2 i now) s).clients id =
      none := by
  induction ids generalizing s with
  | nil => simp at h
  | cons a tl ih =>
      rw [List.foldl_cons]
      by_cases ha : id ∈ tl
      · exact ih _ ha
      · have hai : a = id := by
          rcases List.mem_cons.mp h with h1 | h1
          · exact h1.symm
          · exact absurd h1 ha
        subst hai
        exact foldl_removeClient_lookup_none tl _ now a
          (removeClient_lookup_self s a now)

/-- C7: `broadcast` attempts a write to every currently registered push
handle: every non-failing client's handle gains the frame even when other
clients' writes fail, failing clients are removed from the registry (after
the iteration, which cannot skip anyone), and no poll queue is appended
to. -/
theorem broadcast_spec (s : SSEManagerState) (e d : String) (now : Nat)
    (hnd : nodupKeys s.clients) :
    (∀ id c, lookupA s.clients id = some c → c.failing = false →
      lookupA (broadcast s e d now).clients id =
        some { c with written := c.written ++ [Frame.mk e d now] }) ∧
    (∀ id c, lookupA s.clients id = some c → c.failing = true →
      lookupA (broadcast s e d now).clients id = none) ∧
    (broadcast s e d now).messageQueues = s.messageQueues := by
  refine ⟨?_, ?_, ?_⟩
  · intro id c hl hf
    have hdead : id ∉ (broadcastWrite e d now s.clients).2 := by
      rw [broadcastWrite_dead]
      intro hmem
      rcases List.mem_map.mp hmem with ⟨⟨k, c'⟩, hpm, hk⟩
      rcases List.mem_filter.mp hpm with ⟨hmem', hfail'⟩
      have : lookupA s.clients k = some c' :=
        lookupA_of_mem_nodup s.clients k c' hnd hmem'
      subst hk
      rw [hl] at this
      injection this with hcc
      subst hcc
      simp [hf] at hfail'
    show lookupA
        ((broadcastWrite e d now s.clients).2.foldl
          (fun s2 i => removeClient s2 i now)
          { s with clients := (broadcastWrite e d now s.clients).1 }).clients
        id = _
    rw [foldl_removeClient_lookup_not_mem _ _ _ _ hdead]
    show lookupA (broadcastWrite e d now s.clients).1 id = _
    rw [broadcastWrite_lookup, hl]
    simp [hf]
  · intro id c hl hf
    have hdead : id ∈ (broadcastWrite e d now s.clients).2 := by
      rw [broadcastWrite_dead]
      refine List.mem_map.mpr ⟨(id, c), List.mem_filter.mpr ⟨?_, ?_⟩, rfl⟩
      · exact mem_of_lookupA s.clients id c hl
      · simp [hf]
    exact foldl_removeClient_lookup_mem _ _ _ _ hdead
  · exact foldl_removeClient_messageQueues _ _ _

/-- Witness for C7: two clients, the first failing, the second still
receiving the broadcast frame. -/
theorem broadcast_spec_witness :
    nodupKeys
        ([("a", Conn.mk true []), ("b", Conn.mk false [])] :
          List (String × Conn)) ∧
    lookupA
        (broadcast
          (SSEManagerState.mk
            [("a", Conn.mk true []), ("b", Conn.mk false [])]
            [("b", [])] []) "x" "y" 3).clients "b" =
      some (Conn.mk false [Frame.mk "x" "y" 3]) :=
  ⟨by decide,
    (broadcast_spec
      (SSEManagerState.mk [("a", Conn.mk true []), ("b", Conn.mk false [])]
        [("b", [])] []) "x" "y" 3 (by decide)).1 "b" (Conn.mk false [])
      (by decide) rfl⟩

/-- C10: `broadcast` never appends to any poll queue — the queue store is
unchanged, so a drain after a broadcast returns exactly what it would have
returned before it. -/
theorem broadcast_no_queue_append (s : SSEManagerState) (e d : String)
    (now : Nat) (id : String) :
    (broadcast s e d now).messageQueues = s.messageQueues ∧
    (getPendingMessages (broadcast s e d now) id).1 =
      (getPendingMessages s id).1 := by
  have h : (broadcast s e d now).messageQueues = s.messageQueues :=
    foldl_removeClient_messageQueues _ _ _
  exact ⟨h, by rw [getPendingMessages_fst, getPendingMessages_fst, h]⟩

/-! ### Poll-handler lemmas and remaining claims -/

theorem addClient_queue_lookup (s : SSEManagerState) (id : String)
    (conn : Option Conn) :
    lookupA (addClient s id conn).messageQueues id =
      some ((lookupA s.messageQueues id).getD []) := by
  cases conn with
  | none =>
      cases h : lookupA s.messageQueues id with
      | none => simp [addClient, h, lookupA_setA_self]
      | some q => simp [addClient, h]
  | some c =>
      cases h : lookupA s.messageQueues id with
      | none => simp [addClient, h, lookupA_setA_self]
      | some q => simp [addClient, h]

theorem handleSSEConnectionPoll_eq (s : SSEManagerState) (id : String)
    (cursor : Bool) (now : Nat) (h : id ≠ "") :
    handleSSEConnectionPoll s id cursor now =
      (some ((if cursor then [] else [SSERecord.connected id]) ++
        (getPendingMessages (addClient s id none) id).1.map
          (fun m => SSERecord.frame (Frame.mk m.eventType m.data now)) ++
        (if (getPendingMessages (addClient s id none) id).1.isEmpty && !cursor
         then [SSERecord.connected id] else [])),
       (getPendingMessages (addClient s id none) id).2) := by
  by_cases hc :
      ((getPendingMessages (addClient s id none) id).1.isEmpty && !cursor) =
        true
  · simp [handleSSEConnectionPoll, h, hc]
  · simp [handleSSEConnectionPoll, h, hc]

theorem handleSSEConnectionPoll_queue_cleared (s : SSEManagerState)
    (id : String) (cursor : Bool) (now : Nat) (h : id ≠ "") :
    lookupA (handleSSEConnectionPoll s id cursor now).2.messageQueues id =
      some [] := by
  rw [handleSSEConnectionPoll_eq s id cursor now h]
  rw [getPendingMessages_snd_lookup, addClient_queue_lookup]
  rfl

/-- C8 counterexample: with no replay cursor and a nonempty queue, the
poll-mode body still contains a `connected` event, so "a connected event
only when no cursor was supplied AND the drained queue was empty" is false
at this input. -/
theorem poll_connected_despite_nonempty_queue :
    SSERecord.connected "c2" ∈
      ((handleSSEConnectionPoll
          (SSEManagerState.mk [] [("c2", [QMsg.mk "e" "d"])] [])
          "c2" false 0).1.getD []) ∧
    (getPendingMessages
        (addClient (SSEManagerState.mk [] [("c2", [QMsg.mk "e" "d"])] [])
          "c2" none) "c2").1 ≠ [] := by
  decide

/-- C8 (amended): the poll-mode body contains a `connected` event exactly
when no replay cursor was supplied (twice when the drained queue was also
empty), its frames are exactly the drained messages in order, and a second
poll with a cursor and no intervening sends yields an empty body. -/
theorem handleSSEConnectionPoll_spec (s : SSEManagerState) (id : String)
    (cursor : Bool) (now now2 : Nat) (h : id ≠ "") :
    (SSERecord.connected id ∈
        ((handleSSEConnectionPoll s id cursor now).1.getD []) ↔
      cursor = false) ∧
    ((handleSSEConnectionPoll s id cursor now).1.getD []).filterMap
        SSERecord.getFrame =
      (getPendingMessages (addClient s id none) id).1.map
        (fun m => Frame.mk m.eventType m.data now) ∧
    (handleSSEConnectionPoll ((handleSSEConnectionPoll s id cursor now).2)
        id true now2).1 = some [] := by
  refine ⟨?_, ?_, ?_⟩
  · rw [handleSSEConnectionPoll_eq s id cursor now h]
    constructor
    · intro hmem
      by_contra hcur
      have hcur' : cursor = true := by
        cases cursor
        · exact absurd rfl hcur
        · rfl
      rw [hcur'] at hmem
      simp at hmem
    · intro hcur
      rw [hcur]
      simp
  · rw [handleSSEConnectionPoll_eq s id cursor now h]
    simp only [Option.getD_some, List.filterMap_append]
    have h1 : ((if cursor then ([] : List SSERecord)
        else [SSERecord.connected id]).filterMap SSERecord.getFrame) = [] := by
      split <;> simp [SSERecord.getFrame]
    have h2 : ((if (getPendingMessages (addClient s id none) id).1.isEmpty
          && !cursor then [SSERecord.connected id]
        else ([] : List SSERecord)).filterMap SSERecord.getFrame) = [] := by
      split <;> simp [SSERecord.getFrame]
    rw [h1, h2, List.filterMap_map]
    have hfm : ∀ (g : QMsg → Frame) (l : List QMsg),
        l.filterMap (fun a => some (g a)) = l.map g := by
      intro g l
      induction l with
      | nil => rfl
      | cons a tl ih => simp [List.filterMap_cons, ih]
    simpa using
      hfm (fun m => Frame.mk m.eventType m.data now)
        (getPendingMessages (addClient s id none) id).1
  · have hq2 : lookupA
        (handleSSEConnectionPoll s id cursor now).2.messageQueues id =
        some [] := handleSSEConnectionPoll_queue_cleared s id cursor now h
    rw [handleSSEConnectionPoll_eq _ id true now2 h]
    simp [getPendingMessages_fst, addClient_queue_lookup, hq2]

/-- Witness for C8 at the empty state: the second successive poll with a
cursor returns an empty body. -/
theorem handleSSEConnectionPoll_spec_witness :
    ("c2" : String) ≠ "" ∧
    (handleSSEConnectionPoll
        ((handleSSEConnectionPoll (SSEManagerState.mk [] [] [])
          "c2" false 0).2) "c2" true 1).1 = some [] :=
  ⟨by decide,
    (handleSSEConnectionPoll_spec (SSEManagerState.mk [] [] []) "c2" false 0 1
      (by decide)).2.2⟩

theorem sendToClient_push_clients (s : SSEManagerState) (id e d : String)
    (now : Nat) (c : Conn) (hc : lookupA s.clients id = some c)
    (hfail : c.failing = false) :
    lookupA (sendToClient s id e d now).2.clients id =
      some { c with written := c.written ++ [Frame.mk e d now] } := by
  cases hq : lookupA s.messageQueues id with
  | none => simp [sendToClient, hc, hfail, hq, lookupA_setA_self]
  | some q => simp [sendToClient, hc, hfail, hq, lookupA_setA_self]

/-- C9 counterexample: a message sent (and hence created) at time 5 to a
queue-only client is emitted by a later poll at time 99 in a frame whose
timestamp is 99, the drain time, not the creation time 5. -/
theorem poll_frame_timestamp_not_creation_time :
    (handleSSEConnectionPoll
        ((sendToClient
          (addClient (SSEManagerState.mk [] [] []) "c" none)
          "c" "e" "d" 5).2) "c" true 99).1 =
      some [SSERecord.frame (Frame.mk "e" "d" 99)] ∧
    (99 : Nat) ≠ 5 := by
  decide

/-- C9 (amended): a push-mode frame is stamped with the time of the
`sendToClient` call; queued messages carry no timestamp, and every frame of
a poll-mode body is stamped with the time the poll response is composed
(the drain time), whatever the send times were. -/
theorem message_timestamp_spec (s s' : SSEManagerState) (id e d : String)
    (nowSend nowDrain : Nat) (c : Conn) (cursor : Bool)
    (hc : lookupA s.clients id = some c) (hfail : c.failing = false)
    (hid : id ≠ "") :
    lookupA (sendToClient s id e d nowSend).2.clients id =
      some { c with written := c.written ++ [Frame.mk e d nowSend] } ∧
    ∀ f : Frame,
      SSERecord.frame f ∈
        ((handleSSEConnectionPoll s' id cursor nowDrain).1.getD []) →
      f.timestamp = nowDrain := by
  refine ⟨sendToClient_push_clients s id e d nowSend c hc hfail, ?_⟩
  intro f hf
  rw [handleSSEConnectionPoll_eq s' id cursor nowDrain hid] at hf
  simp only [Option.getD_some, List.mem_append] at hf
  rcases hf with (hf | hf) | hf
  · exfalso
    revert hf
    split <;> simp
  · rcases List.mem_map.mp hf with ⟨m, _, heq⟩
    injection heq with hfr
    rw [← hfr]
  · exfalso
    revert hf
    split <;> simp

/-- Witness for C9: one registered client, sent a message at time 5; the
handle's frame is stamped 5. -/
theorem message_timestamp_spec_witness :
    lookupA
        (sendToClient
          (SSEManagerState.mk [("c", Conn.mk false [])] [("c", [])] [])
          "c" "e" "d" 5).2.clients "c" =
      some (Conn.mk false [Frame.mk "e" "d" 5]) :=
  (message_timestamp_spec
    (SSEManagerState.mk [("c", Conn.mk false [])] [("c", [])] [])
    (SSEManagerState.mk [] [] []) "c" "e" "d" 5 0 (Conn.mk false []) true
    (by decide) rfl (by decide)).1

/-- C6 (refuted; code bug): the timer scheduled by `removeClient` deletes
the queue unconditionally — re-registering the client before expiry does
not guard the delayed deletion, so the message queued after re-registration
is lost when the timer fires. -/
theorem delayedDeletion_unguarded :
    (getPendingMessages graceRaceBeforeFire "c").1 = [QMsg.mk "e" "d"] ∧
    lookupA graceRaceAfterFire.messageQueues "c" = none ∧
    (getPendingMessages graceRaceAfterFire "c").1 = [] := by
  decide
